import Mathlib

/-!
Verification of the bucket-namespacing and transaction-isolation layer of
the badgerkv repository (a bucket/transaction adapter over the badger
key-value engine).

The badger engine itself is an external collaborator (spec section 1 and 6):
an ordered byte-key store with get/set/delete and ordered cursors, atomic
commit and rollback.  It is modelled here as an association list of
(engine key, value) pairs kept sorted in ascending lexicographic byte
order, which is the order badger's cursors expose.  All code of the
repository (key codec, iterator adapter, item, bucket, transaction,
database, relation store) is translated definition by definition from the
Go sources.
-/

/-- Bytes are modelled as lists of naturals (Go byte slices). -/
abbrev Bytes := List Nat

/-- Engine transaction state: the key/value pairs visible inside one badger
transaction, sorted ascending by lexicographic key order with distinct
keys (maintained by txnSet).  Models the external badger engine. -/
abbrev Txn := List (Bytes × Bytes)

/-- Strict lexicographic order on byte strings, as used by the badger
engine to order keys (bytes.Compare semantics). -/
def lexLt : Bytes → Bytes → Bool
  | [], [] => false
  | [], _ :: _ => true
  | _ :: _, [] => false
  | a :: as, b :: bs => if a < b then true else if b < a then false else lexLt as bs

/-- Engine point lookup inside a transaction (badger Txn.Get); none models
badger.ErrKeyNotFound. -/
def txnGet : Txn → Bytes → Option Bytes
  | [], _ => none
  | e :: rest, key => if e.1 = key then some e.2 else txnGet rest key

/-- Engine upsert inside a transaction (badger Txn.Set): sorted insertion,
replacing the value when the key is already present. -/
def txnSet : Txn → Bytes → Bytes → Txn
  | [], key, val => [(key, val)]
  | e :: rest, key, val =>
    if lexLt key e.1 then (key, val) :: e :: rest
    else if e.1 = key then (key, val) :: rest
    else e :: txnSet rest key val

/-- Engine delete inside a transaction (badger Txn.Delete): removes the
key; deleting an absent key is a no-op. -/
def txnDelete : Txn → Bytes → Txn
  | [], _ => []
  | e :: rest, key => if e.1 = key then txnDelete rest key else e :: txnDelete rest key

/-- key.go: BucketToPrefix appends the delimiter byte 95 ('_') to the
bucket name. -/
def BucketToPrefix (bucket : Bytes) : Bytes := bucket ++ [95]

/-- key.go: BucketAddKey maps a (bucket, raw key) pair to the engine key
bucket ++ '_' ++ key. -/
def BucketAddKey (bucket : Bytes) (key : Bytes) : Bytes :=
  BucketToPrefix bucket ++ key

/-- key.go: BucketRemoveKey strips the first len(bucket)+1 bytes
(key[len(bucket)+1:]). -/
def BucketRemoveKey (bucket : Bytes) (key : Bytes) : Bytes :=
  key.drop (bucket.length + 1)

/-- An Item as returned by lookups and iteration: either a badgerkv item
wrapping a badger engine item (item.go), or a libkv ByteItem produced for
absent keys. -/
inductive Item where
  | badgerItem (bucketName : Bytes) (engineKey : Bytes) (value : Bytes)
  | byteItem (key : Bytes) (value : Option Bytes)
deriving DecidableEq, Repr

/-- item.go: NewItem wraps a badger item (whose Key() is the engine key)
together with the bucket name. -/
def NewItem (bucketName : Bytes) (engineKey : Bytes) (value : Bytes) : Item :=
  Item.badgerItem bucketName engineKey value

/-- Modelled from the spec: libkv.NewByteItem is not under src/ (only its
caller bucket.Get is).  Per spec sections 4.3 and 4.4 a point lookup on an
absent key returns a non-existing Item whose Value consumer is invoked
with no bytes, so the item exists iff it carries a value. -/
def NewByteItem (key : Bytes) (value : Option Bytes) : Item :=
  Item.byteItem key value

/-- item.go: Exists() of a badgerkv item returns true unconditionally; a
ByteItem reflects presence of its value (spec-modelled, see NewByteItem). -/
def Item.Exists : Item → Bool
  | Item.badgerItem _ _ _ => true
  | Item.byteItem _ value => value.isSome

/-- item.go: Key() strips the bucket prefix from the engine key via
BucketRemoveKey; a ByteItem returns its stored raw key. -/
def Item.Key : Item → Bytes
  | Item.badgerItem bucketName engineKey _ => BucketRemoveKey bucketName engineKey
  | Item.byteItem key _ => key

/-- The bytes the Value(fn) consumer is invoked with: the stored value for
a badgerkv item, none (Go nil) for an absent-key ByteItem. -/
def Item.ValueBytes : Item → Option Bytes
  | Item.badgerItem _ _ value => some value
  | Item.byteItem _ value => value

/-- bucket.go: a bucket is a bucket name scoped to the enclosing badger
transaction (the transaction state is passed explicitly). -/
structure Bucket where
  bucketName : Bytes
deriving DecidableEq, Repr

/-- bucket.go: NewBucket. -/
def NewBucket (bucketName : Bytes) : Bucket := ⟨bucketName⟩

/-- bucket.go: Get performs the engine point lookup on
BucketAddKey(name, key); on badger.ErrKeyNotFound it returns
libkv.NewByteItem(key, nil) with a nil error (engine failures other than
key-not-found are outside the engine model). -/
def Bucket.Get (b : Bucket) (t : Txn) (key : Bytes) : Item :=
  match txnGet t (BucketAddKey b.bucketName key) with
  | none => NewByteItem key none
  | some v => NewItem b.bucketName (BucketAddKey b.bucketName key) v

/-- bucket.go: Put sets the engine key BucketAddKey(name, key). -/
def Bucket.Put (b : Bucket) (t : Txn) (key : Bytes) (value : Bytes) : Txn :=
  txnSet t (BucketAddKey b.bucketName key) value

/-- bucket.go: Delete removes the engine key BucketAddKey(name, key). -/
def Bucket.Delete (b : Bucket) (t : Txn) (key : Bytes) : Txn :=
  txnDelete t (BucketAddKey b.bucketName key)

theorem lexLt_irrefl (l : Bytes) : lexLt l l = false := by
  induction l with
  | nil => rfl
  | cons a as ih => simp [lexLt, ih]

theorem txnGet_txnSet_self (t : Txn) (k v : Bytes) :
    txnGet (txnSet t k v) k = some v := by
  induction t with
  | nil => simp [txnSet, txnGet]
  | cons e rest ih =>
    by_cases h1 : lexLt k e.1
    · simp [txnSet, h1, txnGet]
    · by_cases h2 : e.1 = k
      · simp [txnSet, h1, h2, txnGet, lexLt_irrefl]
      · simp [txnSet, h1, h2, txnGet, ih]

theorem txnGet_txnDelete_self (t : Txn) (k : Bytes) :
    txnGet (txnDelete t k) k = none := by
  induction t with
  | nil => rfl
  | cons e rest ih =>
    by_cases h : e.1 = k
    · simp [txnDelete, h, ih]
    · simp [txnDelete, h, txnGet, ih]

theorem txnGet_txnDelete_ne (t : Txn) (k k2 : Bytes) (h : k2 ≠ k) :
    txnGet (txnDelete t k) k2 = txnGet t k2 := by
  induction t with
  | nil => rfl
  | cons e rest ih =>
    by_cases he : e.1 = k
    · simp [txnDelete, he, txnGet, ih, Ne.symm h]
    · simp [txnDelete, he, txnGet, ih]

theorem BucketRemoveKey_BucketAddKey (bucket key : Bytes) :
    BucketRemoveKey bucket (BucketAddKey bucket key) = key := by
  have hlen : (BucketToPrefix bucket).length = bucket.length + 1 := by
    simp [BucketToPrefix]
  simp [BucketRemoveKey, BucketAddKey, ← hlen, List.drop_left]

/-- A badger engine cursor (badger.Iterator): a snapshot of the
transaction's entries taken at creation, already arranged in iteration
order (reversed for a reverse cursor), together with the current
position. -/
structure BadgerIterator where
  entries : List (Bytes × Bytes)
  reverse : Bool
  pos : Nat
deriving DecidableEq, Repr

/-- badger Txn.NewIterator: snapshots the transaction's sorted entries,
in descending order when opts.Reverse is set. -/
def newBadgerIterator (t : Txn) (reverse : Bool) : BadgerIterator :=
  ⟨if reverse then t.reverse else t, reverse, 0⟩

/-- badger Iterator.Valid: the cursor points at an entry. -/
def BadgerIterator.Valid (i : BadgerIterator) : Bool :=
  i.pos < i.entries.length

/-- badger Iterator.ValidForPrefix: the cursor points at an entry whose
key starts with the given byte string. -/
def BadgerIterator.ValidForPrefix (i : BadgerIterator) (p : Bytes) : Bool :=
  match i.entries[i.pos]? with
  | none => false
  | some e => p.isPrefixOf e.1

/-- badger Iterator.Rewind: move to the first entry in iteration order
of the whole store (the globally smallest key forward, largest reverse). -/
def BadgerIterator.Rewind (i : BadgerIterator) : BadgerIterator :=
  ⟨i.entries, i.reverse, 0⟩

/-- badger Iterator.Next: advance one step in the configured direction. -/
def BadgerIterator.Next (i : BadgerIterator) : BadgerIterator :=
  ⟨i.entries, i.reverse, i.pos + 1⟩

/-- badger Iterator.Seek: forward cursors move to the first entry with
key not below the target; reverse cursors to the first entry (in
descending order) with key not above the target.  When no entry
qualifies the position falls past the end (findIdx returns the length). -/
def BadgerIterator.Seek (i : BadgerIterator) (key : Bytes) : BadgerIterator :=
  ⟨i.entries, i.reverse,
    i.entries.findIdx (fun e => if i.reverse then !(lexLt key e.1) else !(lexLt e.1 key))⟩

/-- badger_iterator.go: the badgerkv iterator wraps a badger cursor with
the bucket name. -/
structure Iterator where
  badgerIterator : BadgerIterator
  bucketName : Bytes
deriving DecidableEq, Repr

/-- badger_iterator.go: NewIterator. -/
def NewIterator (badgerIterator : BadgerIterator) (bucketName : Bytes) : Iterator :=
  ⟨badgerIterator, bucketName⟩

/-- badger_iterator.go: Item() wraps the current badger item (engine key
and value) via NewItem; none when the underlying cursor is exhausted
(the source leaves this case undefined). -/
def Iterator.Item (i : Iterator) :=
  (i.badgerIterator.entries[i.badgerIterator.pos]?).map
    (fun e => NewItem i.bucketName e.1 e.2)

/-- badger_iterator.go: Next() advances the underlying cursor. -/
def Iterator.Next (i : Iterator) : Iterator :=
  ⟨i.badgerIterator.Next, i.bucketName⟩

/-- badger_iterator.go: Valid() delegates to ValidForPrefix with the
bucket NAME (the delimiter byte is not appended). -/
def Iterator.Valid (i : Iterator) : Bool :=
  i.badgerIterator.ValidForPrefix i.bucketName

/-- badger_iterator.go: Rewind() rewinds the underlying cursor. -/
def Iterator.Rewind (i : Iterator) : Iterator :=
  ⟨i.badgerIterator.Rewind, i.bucketName⟩

/-- badger_iterator.go: Seek(key) seeks the underlying cursor to
BucketAddKey(bucketName, key). -/
def Iterator.Seek (i : Iterator) (key : Bytes) : Iterator :=
  ⟨i.badgerIterator.Seek (BucketAddKey i.bucketName key), i.bucketName⟩

/-- bucket.go: createIterator builds a badger cursor over the enclosing
transaction (forward or reverse) and wraps it with the bucket name. -/
def Bucket.createIterator (b : Bucket) (t : Txn) (reverse : Bool) : Iterator :=
  NewIterator (newBadgerIterator t reverse) b.bucketName

/-- bucket.go: Iterator() is createIterator(false). -/
def Bucket.Iterator (b : Bucket) (t : Txn) :=
  Bucket.createIterator b t false

/-- bucket.go: IteratorReverse() is createIterator(true). -/
def Bucket.IteratorReverse (b : Bucket) (t : Txn) :=
  Bucket.createIterator b t true

/-- The canonical iteration loop used throughout the repository's tests:
while Valid() collect Item() and Next().  Fuel bounds the number of
steps; any fuel at least the number of remaining entries gives the full
run. -/
def collectItems : Nat → Iterator → List Item
  | 0, _ => []
  | fuel + 1, it =>
    if it.Valid = true then
      match it.Item with
      | some x => x :: collectItems fuel it.Next
      | none => []
    else []

/-- Run an iterator from Rewind() to exhaustion (the test-suite loop). -/
def runIterator (it : Iterator) : List Item :=
  collectItems it.badgerIterator.entries.length it.Rewind

/-- Error kinds of the kv layer.  errors.Wrapf only adds message context
and preserves the error identity for errors.Is, so wrapping is modelled
as the identity on the kind. -/
inductive KVError where
  | transactionAlreadyOpen
  | engineError (code : Nat)
deriving DecidableEq, Repr

/-- db.go: the open-transaction marker carried by a context
(ctx.Value(stateCtxKey) != nil.)  Only the marker is relevant to the
code under verification, so a context is modelled by that flag. -/
structure Context where
  openTxMarker : Bool
deriving DecidableEq, Repr

/-- db.go: IsTransactionOpen(ctx) is true iff the context carries the
open-transaction marker. -/
def IsTransactionOpen (ctx : Context) : Bool := ctx.openTxMarker

/-- db.go: SetOpenState attaches the marker to the context
(context.WithValue(ctx, stateCtxKey, "open")). -/
def SetOpenState (_ctx : Context) : Context := ⟨true⟩

/-- Result of a Database.Update call: the returned error (if any), the
store visible after the call, and whether the engine transaction was
started at all. -/
structure UpdateResult where
  err : Option KVError
  store : Txn
  engineStarted : Bool
deriving DecidableEq, Repr

/-- Result of a Database.View call (read-only, the store is unchanged). -/
structure ViewResult where
  err : Option KVError
  engineStarted : Bool
deriving DecidableEq, Repr

/-- db.go: badgerdb.Update.  Fails with TransactionAlreadyOpenError
before the engine transaction is started when the incoming context
carries the marker; otherwise runs fn inside badger's Update with the
marker attached to the context handed to fn.  fn returns the mutated
transaction state plus an optional error; per the engine contract
(spec sections 1 and 6) badger commits the state iff fn returned no
error and discards it otherwise. -/
def dbUpdate (store : Txn) (ctx : Context)
    (fn : Context → Txn → Txn × Option KVError) : UpdateResult :=
  if IsTransactionOpen ctx then
    ⟨some KVError.transactionAlreadyOpen, store, false⟩
  else
    match fn (SetOpenState ctx) store with
    | (_, some e) => ⟨some e, store, true⟩
    | (s, none) => ⟨none, s, true⟩

/-- db.go: badgerdb.View.  Same nesting check; runs fn read-only. -/
def dbView (store : Txn) (ctx : Context)
    (fn : Context → Txn → Option KVError) : ViewResult :=
  if IsTransactionOpen ctx then
    ⟨some KVError.transactionAlreadyOpen, false⟩
  else
    ⟨fn (SetOpenState ctx) store, true⟩

/-- tx.go: tx.Bucket returns NewBucket(badgerTx, name) with a nil error,
unconditionally. -/
def txBucket (name : Bytes) : Option KVError × Bucket :=
  (none, NewBucket name)

/-- tx.go: tx.CreateBucket returns NewBucket(badgerTx, name) with a nil
error, unconditionally. -/
def txCreateBucket (name : Bytes) : Option KVError × Bucket :=
  (none, NewBucket name)

/-- tx.go: tx.CreateBucketIfNotExists returns NewBucket(badgerTx, name)
with a nil error, unconditionally. -/
def txCreateBucketIfNotExists (name : Bytes) : Option KVError × Bucket :=
  (none, NewBucket name)

/-- tx.go DeleteBucket loop body: walk the cursor snapshot from the seek
position; break at the first key that does not start with the bucket
name; delete every visited key from the transaction. -/
def deleteKeysLoop (store : Txn) (entries : List (Bytes × Bytes)) (name : Bytes) : Txn :=
  match entries with
  | [] => store
  | e :: rest =>
    if name.isPrefixOf e.1 then deleteKeysLoop (txnDelete store e.1) rest name
    else store

/-- tx.go: tx.DeleteBucket seeds a forward cursor at the bare bucket
name (it.Seek(name.Bytes())), then deletes while bytes.HasPrefix(key,
name) holds.  It returns a nil error in every case (the engine Delete of
the model is total, and no NotFoundError is produced for an absent
bucket). -/
def txDeleteBucket (store : Txn) (name : Bytes) : Option KVError × Txn :=
  (none,
    deleteKeysLoop store
      (store.drop (store.findIdx (fun e => !(lexLt e.1 name)))) name)

/-- relation-store.go: the relationStore holds a RelationStoreTx
implementation (built by NewRelationStoreTx, whose code is not under
src/) and a DB; every operation is exactly one field call wrapped in one
View/Update.  The tx-level implementation is therefore kept abstract: a
record of the four mutating bodies, each returning the mutated
transaction state plus an optional error. -/
structure RelationStoreTx where
  Add : Context → Txn → Bytes → List Bytes → Txn × Option KVError
  Replace : Context → Txn → Bytes → List Bytes → Txn × Option KVError
  Remove : Context → Txn → Bytes → List Bytes → Txn × Option KVError
  Delete : Context → Txn → Bytes → Txn × Option KVError

/-- relation-store.go: relationStore (its db field is the explicit store
argument of each operation). -/
structure RelationStore where
  relationStoreTx : RelationStoreTx

/-- relation-store.go: Add runs relationStoreTx.Add inside exactly one
db.Update call. -/
def RelationStore.Add (r : RelationStore) (store : Txn) (ctx : Context)
    (id : Bytes) (relatedIds : List Bytes) : UpdateResult :=
  dbUpdate store ctx (fun c t => r.relationStoreTx.Add c t id relatedIds)

/-- relation-store.go: Replace runs relationStoreTx.Replace inside
exactly one db.Update call. -/
def RelationStore.Replace (r : RelationStore) (store : Txn) (ctx : Context)
    (id : Bytes) (relatedIds : List Bytes) : UpdateResult :=
  dbUpdate store ctx (fun c t => r.relationStoreTx.Replace c t id relatedIds)

/-- relation-store.go: Remove runs relationStoreTx.Remove inside exactly
one db.Update call. -/
def RelationStore.Remove (r : RelationStore) (store : Txn) (ctx : Context)
    (id : Bytes) (relatedIds : List Bytes) : UpdateResult :=
  dbUpdate store ctx (fun c t => r.relationStoreTx.Remove c t id relatedIds)

/-- relation-store.go: Delete runs relationStoreTx.Delete inside exactly
one db.Update call. -/
def RelationStore.Delete (r : RelationStore) (store : Txn) (ctx : Context)
    (id : Bytes) : UpdateResult :=
  dbUpdate store ctx (fun c t => r.relationStoreTx.Delete c t id)

theorem lexLt_append (p a b : Bytes) : lexLt (p ++ a) (p ++ b) = lexLt a b := by
  induction p with
  | nil => rfl
  | cons x xs ih => simp [lexLt, Nat.lt_irrefl, ih]

theorem isPrefixOf_append_self (l t : Bytes) : l.isPrefixOf (l ++ t) = true := by
  rw [List.isPrefixOf_iff_prefix]
  exact List.prefix_append l t

/-- Every item the iteration loop yields is a NewItem over the
iterator's bucket name whose engine key starts with that bucket name
(this is exactly what Valid() checks before each yield). -/
theorem collectItems_yield (fuel : Nat) :
    ∀ (it : Iterator) (x : Item), x ∈ collectItems fuel it →
      ∃ k v, x = NewItem it.bucketName k v ∧ it.bucketName.isPrefixOf k = true := by
  induction fuel with
  | zero =>
    intro it x hx
    simp [collectItems] at hx
  | succ fuel ih =>
    intro it x hx
    by_cases hv : it.Valid = true
    · cases hget : it.badgerIterator.entries[it.badgerIterator.pos]? with
      | none =>
        exfalso
        simp [Iterator.Valid, BadgerIterator.ValidForPrefix, hget] at hv
      | some e =>
        have hp : it.bucketName.isPrefixOf e.1 = true := by
          have := hv
          simp only [Iterator.Valid, BadgerIterator.ValidForPrefix, hget] at this
          exact this
        have hitem : it.Item = some (NewItem it.bucketName e.1 e.2) := by
          simp [Iterator.Item, hget]
        simp only [collectItems, hv, if_true, hitem] at hx
        rcases List.mem_cons.mp hx with h1 | h2
        · exact ⟨e.1, e.2, h1, hp⟩
        · have := ih it.Next x h2
          simpa [Iterator.Next] using this
    · simp [collectItems, hv] at hx

/-- When every entry of the cursor snapshot carries the bucket name as a
prefix, the iteration loop yields all entries from the current position
to the end, in snapshot order. -/
theorem collectItems_run (name : Bytes) (fuel : Nat) :
    ∀ (ent : List (Bytes × Bytes)) (rev : Bool) (pos : Nat),
      (∀ e ∈ ent, name.isPrefixOf e.1 = true) →
      ent.length - pos ≤ fuel →
      collectItems fuel ⟨⟨ent, rev, pos⟩, name⟩
        = (ent.drop pos).map (fun e => NewItem name e.1 e.2) := by
  induction fuel with
  | zero =>
    intro ent rev pos hpre hfuel
    have hle : ent.length ≤ pos := by omega
    simp [collectItems, List.drop_eq_nil_of_le hle]
  | succ fuel ih =>
    intro ent rev pos hpre hfuel
    by_cases hpos : pos < ent.length
    · have hget : ent[pos]? = some ent[pos] := List.getElem?_eq_getElem hpos
      have hmem : ent[pos] ∈ ent := List.getElem_mem hpos
      have hpe := hpre _ hmem
      have hvalid : (Iterator.Valid ⟨⟨ent, rev, pos⟩, name⟩) = true := by
        simp [Iterator.Valid, BadgerIterator.ValidForPrefix, hget, hpe]
      have hitem : (Iterator.Item ⟨⟨ent, rev, pos⟩, name⟩)
          = some (NewItem name ent[pos].1 ent[pos].2) := by
        simp [Iterator.Item, hget]
      have hdrop : ent.drop pos = ent[pos] :: ent.drop (pos + 1) :=
        List.drop_eq_getElem_cons hpos
      have hnext : (Iterator.Next ⟨⟨ent, rev, pos⟩, name⟩)
          = (⟨⟨ent, rev, pos + 1⟩, name⟩ : Iterator) := rfl
      have hrec := ih ent rev (pos + 1) hpre (by omega)
      simp only [collectItems, hvalid, if_true, hitem, hnext, hrec, hdrop, List.map_cons]
    · have hget : ent[pos]? = none := List.getElem?_eq_none (by omega)
      have hvalid : (Iterator.Valid ⟨⟨ent, rev, pos⟩, name⟩) = false := by
        simp [Iterator.Valid, BadgerIterator.ValidForPrefix, hget]
      simp [collectItems, hvalid, List.drop_eq_nil_of_le (by omega : ent.length ≤ pos)]

/-- Engine rollback across the Database.Update wrapper: whenever the call
reports an error, the visible store is the one from before the call. -/
theorem dbUpdate_err_store (store : Txn) (ctx : Context)
    (fn : Context → Txn → Txn × Option KVError) (e : KVError)
    (h : (dbUpdate store ctx fn).err = some e) :
    (dbUpdate store ctx fn).store = store := by
  unfold dbUpdate at h ⊢
  by_cases hm : IsTransactionOpen ctx
  · simp [hm]
  · cases hfn : fn (SetOpenState ctx) store with
    | mk s oe =>
      cases oe with
      | none => simp [hm, hfn] at h
      | some e2 => simp [hm, hfn]

/-- C8.  Key codec round-trip: BucketAddKey(b, k) is b ++ '_' ++ k; on any
input that begins with b's prefix, BucketRemoveKey strips exactly the
first len(b)+1 bytes, so it inverts BucketAddKey; and unconditionally
BucketRemoveKey is plain slicing key[len(b)+1:]. -/
theorem claim_C8 (b k rest input : Bytes) :
    BucketAddKey b k = b ++ 95 :: k
    ∧ BucketRemoveKey b (BucketAddKey b k) = k
    ∧ BucketRemoveKey b (BucketToPrefix b ++ rest) = rest
    ∧ BucketRemoveKey b input = input.drop (b.length + 1) := by
  refine ⟨by simp [BucketAddKey, BucketToPrefix], BucketRemoveKey_BucketAddKey b k, ?_, rfl⟩
  exact BucketRemoveKey_BucketAddKey b rest

/-- C10.  Every Item constructed by NewItem reports Exists() = true
unconditionally (item.go returns the literal true), hence every
Iterator.Item() result and every point-lookup hit is an existing item,
whatever the stored value (including the empty value). -/
theorem claim_C10 (bn ek v : Bytes) (store : Txn) (k : Bytes) (it : Iterator) (x : Item) :
    (NewItem bn ek v).Exists = true
    ∧ (it.Item = some x → x.Exists = true)
    ∧ (∀ v2, txnGet store (BucketAddKey bn k) = some v2 →
        (Bucket.Get (NewBucket bn) store k).Exists = true) := by
  refine ⟨rfl, ?_, ?_⟩
  · intro hx
    rcases hget : it.badgerIterator.entries[it.badgerIterator.pos]? with _ | e
    · simp [Iterator.Item, hget] at hx
    · simp [Iterator.Item, hget] at hx
      rw [← hx]
      rfl
  · intro v2 hget
    simp [Bucket.Get, NewBucket, hget, NewItem, Item.Exists]

/-- C10 witness: a concrete iterator position over an entry with an empty
stored value still yields an item with Exists() = true. -/
theorem claim_C10_witness :
    (Bucket.Iterator (NewBucket [98]) [(BucketAddKey [98] [107], [])]).Item
        = some (NewItem [98] (BucketAddKey [98] [107]) [])
    ∧ (NewItem [98] (BucketAddKey [98] [107]) ([] : Bytes)).Exists = true :=
  ⟨by decide,
    (claim_C10 [98] (BucketAddKey [98] [107]) [] [] [107]
        (Bucket.Iterator (NewBucket [98]) [(BucketAddKey [98] [107], [])])
        (NewItem [98] (BucketAddKey [98] [107]) [])).2.1 (by decide)⟩

/-- C5.  Put/Get round-trip inside one transaction: after
Bucket.Put(k, v), Bucket.Get(k) returns (with a nil error) the badgerkv
item over the engine key, which Exists(), whose Key() is k with the
bucket prefix stripped, and whose Value consumer receives exactly v. -/
theorem claim_C5 (store : Txn) (name k v : Bytes) :
    Bucket.Get (NewBucket name) (Bucket.Put (NewBucket name) store k v) k
        = NewItem name (BucketAddKey name k) v
    ∧ (Bucket.Get (NewBucket name) (Bucket.Put (NewBucket name) store k v) k).Exists = true
    ∧ (Bucket.Get (NewBucket name) (Bucket.Put (NewBucket name) store k v) k).Key = k
    ∧ (Bucket.Get (NewBucket name) (Bucket.Put (NewBucket name) store k v) k).ValueBytes
        = some v := by
  have hget : txnGet (txnSet store (BucketAddKey name k) v) (BucketAddKey name k) = some v :=
    txnGet_txnSet_self store (BucketAddKey name k) v
  refine ⟨?_, ?_, ?_, ?_⟩ <;>
    simp [Bucket.Get, Bucket.Put, NewBucket, hget, NewItem, Item.Exists, Item.Key,
      Item.ValueBytes, BucketRemoveKey_BucketAddKey]

/-- C6.  Tombstone: after Bucket.Delete(k), Bucket.Get(k) returns (with a
nil error) a non-existing ByteItem whose Value consumer receives no
bytes; and in general a Get on any absent key is the non-existing Item,
not an error. -/
theorem claim_C6 (store : Txn) (name k : Bytes) :
    (Bucket.Get (NewBucket name) (Bucket.Delete (NewBucket name) store k) k
        = NewByteItem k none
      ∧ (Bucket.Get (NewBucket name) (Bucket.Delete (NewBucket name) store k) k).Exists = false
      ∧ (Bucket.Get (NewBucket name) (Bucket.Delete (NewBucket name) store k) k).ValueBytes
          = none)
    ∧ (∀ k2, txnGet store (BucketAddKey name k2) = none →
        Bucket.Get (NewBucket name) store k2 = NewByteItem k2 none
          ∧ (Bucket.Get (NewBucket name) store k2).Exists = false
          ∧ (Bucket.Get (NewBucket name) store k2).ValueBytes = none) := by
  have hget : txnGet (txnDelete store (BucketAddKey name k)) (BucketAddKey name k) = none :=
    txnGet_txnDelete_self store (BucketAddKey name k)
  constructor
  · refine ⟨?_, ?_, ?_⟩ <;>
      simp [Bucket.Get, Bucket.Delete, NewBucket, hget, NewByteItem, Item.Exists,
        Item.ValueBytes]
  · intro k2 hnone
    refine ⟨?_, ?_, ?_⟩ <;>
      simp [Bucket.Get, NewBucket, hnone, NewByteItem, Item.Exists, Item.ValueBytes]

/-- C6 witness: on the empty store the key [107] of bucket [98] is absent
and Get returns the non-existing item. -/
theorem claim_C6_witness :
    txnGet [] (BucketAddKey [98] [107]) = none
    ∧ Bucket.Get (NewBucket [98]) [] [107] = NewByteItem [107] none :=
  ⟨by decide, ((claim_C6 [] [98] [107]).2 [107] (by decide)).1⟩

/-- C3.  The claim states CreateBucket fails with AlreadyExistsError on an
existing name and Bucket fails with NotFoundError on a missing name.  The
code of tx.go returns NewBucket with a nil error unconditionally for
Bucket, CreateBucket and CreateBucketIfNotExists alike (no bucket
registry is consulted), contradicting the repository's own tests, which
expect the two errors.  This theorem evaluates the code: no call ever
produces an error, so in particular the second of two CreateBucket calls
with the same name succeeds and Bucket on a nonexistent name succeeds. -/
theorem claim_C3 (name : Bytes) :
    txCreateBucket name = (none, NewBucket name)
    ∧ txBucket name = (none, NewBucket name)
    ∧ txCreateBucketIfNotExists name = (none, NewBucket name) :=
  ⟨rfl, rfl, rfl⟩

/-- C4.  The claim states DeleteBucket fails with NotFoundError when the
bucket is absent.  The code of tx.go never returns NotFoundError: the
error component is structurally none for every store and name
(contradicting the repository's own test, which expects a not-found
failure for an absent bucket); on the empty store the call is a
successful no-op. -/
theorem claim_C4 (store : Txn) (name : Bytes) :
    (txDeleteBucket store name).1 = none
    ∧ txDeleteBucket [] name = (none, []) :=
  ⟨rfl, rfl⟩

/-- C1 counterexample.  The claim asserts Valid() is true iff the current
engine key starts with the bucket's prefix, i.e. the name with the
delimiter appended.  Take bucket B1 = "a" ([97]) and bucket B2 = "ab"
([97, 98]) holding the single raw key "x" ([120]), whose engine key is
BucketAddKey "ab" "x" = "ab_x".  Rewinding a B1 iterator over that store
lands on "ab_x": Valid() is true (the code checks the bare name "a"),
but "ab_x" does not start with B1's prefix "a_", and the iteration loop
yields exactly that entry of B2 — an entry stored only in B2. -/
theorem claim_C1_counterexample :
    ((Bucket.Iterator (NewBucket [97]) [(BucketAddKey [97, 98] [120], [7])]).Rewind).Valid
        = true
    ∧ (BucketToPrefix [97]).isPrefixOf (BucketAddKey [97, 98] [120]) = false
    ∧ collectItems 1 ((Bucket.Iterator (NewBucket [97]) [(BucketAddKey [97, 98] [120], [7])]).Rewind)
        = [NewItem [97] (BucketAddKey [97, 98] [120]) [7]] := by
  decide

/-- C1, amended.  Valid() is true iff the current engine key starts with
the bucket NAME (the delimiter byte is not part of the check); hence
every item an iterator over B1 yields is a NewItem over B1 whose engine
key starts with B1's name, and an entry of bucket B2 is never yielded
provided B1's name is not a prefix of B2's engine keys (in particular
whenever neither bucket name is a prefix of the other). -/
theorem claim_C1 :
    (∀ it : Iterator, it.Valid = true ↔
      ∃ e, it.badgerIterator.entries[it.badgerIterator.pos]? = some e
        ∧ it.bucketName.isPrefixOf e.1 = true)
    ∧ (∀ (fuel : Nat) (it : Iterator) (x : Item), x ∈ collectItems fuel it →
        ∃ k v, x = NewItem it.bucketName k v ∧ it.bucketName.isPrefixOf k = true)
    ∧ (∀ (fuel : Nat) (it : Iterator) (b2 rk v : Bytes),
        it.bucketName.isPrefixOf (BucketAddKey b2 rk) = false →
        NewItem it.bucketName (BucketAddKey b2 rk) v ∉ collectItems fuel it) := by
  refine ⟨?_, collectItems_yield, ?_⟩
  · intro it
    cases hget : it.badgerIterator.entries[it.badgerIterator.pos]? with
    | none => simp [Iterator.Valid, BadgerIterator.ValidForPrefix, hget]
    | some e => simp [Iterator.Valid, BadgerIterator.ValidForPrefix, hget]
  · intro fuel it b2 rk v hfalse hmem
    rcases collectItems_yield fuel it _ hmem with ⟨k, v2, heq, hpre⟩
    have hk : BucketAddKey b2 rk = k := by
      have := congrArg Item.Key heq
      simpa [NewItem, Item.Key] using
        congrArg (fun i => match i with
          | Item.badgerItem _ ek _ => ek
          | Item.byteItem key _ => key) heq
    rw [← hk] at hpre
    rw [hfalse] at hpre
    exact Bool.false_ne_true hpre

/-- C1 witness: bucket [98] over a store holding only its own key [120];
bucket [97]'s engine keys do not start with [98], so the [97]-entry item
is never yielded. -/
theorem claim_C1_witness :
    ([98] : Bytes).isPrefixOf (BucketAddKey [97] [107]) = false
    ∧ NewItem [98] (BucketAddKey [97] [107]) [9]
        ∉ collectItems 1 (Bucket.Iterator (NewBucket [98]) [(BucketAddKey [98] [120], [5])]) :=
  ⟨by decide,
    claim_C1.2.2 1 (Bucket.Iterator (NewBucket [98]) [(BucketAddKey [98] [120], [5])])
      [97] [107] [9] (by decide)⟩

/-- C2.  Nested-transaction rejection: when the incoming context carries
the open-transaction marker, Update and View fail with
TransactionAlreadyOpenError without starting the engine transaction;
SetOpenState — the context both wrappers hand to fn, as the third
conjunct makes explicit — always carries the marker, so any Update or
View invoked (even indirectly) with the context passed into fn is
rejected the same way. -/
theorem claim_C2 (store store2 : Txn) (ctx : Context)
    (fnU fnU2 : Context → Txn → Txn × Option KVError)
    (fnV fnV2 : Context → Txn → Option KVError) :
    (IsTransactionOpen ctx = true →
      dbUpdate store ctx fnU = ⟨some KVError.transactionAlreadyOpen, store, false⟩
        ∧ dbView store ctx fnV = ⟨some KVError.transactionAlreadyOpen, false⟩)
    ∧ IsTransactionOpen (SetOpenState ctx) = true
    ∧ (IsTransactionOpen ctx = false →
        dbUpdate store ctx fnU =
          (match fnU (SetOpenState ctx) store with
            | (_, some e) => ⟨some e, store, true⟩
            | (s, none) => ⟨none, s, true⟩)
          ∧ dbView store ctx fnV = ⟨fnV (SetOpenState ctx) store, true⟩)
    ∧ (dbUpdate store2 (SetOpenState ctx) fnU2).err = some KVError.transactionAlreadyOpen
    ∧ (dbUpdate store2 (SetOpenState ctx) fnU2).engineStarted = false
    ∧ (dbView store2 (SetOpenState ctx) fnV2).err = some KVError.transactionAlreadyOpen
    ∧ (dbView store2 (SetOpenState ctx) fnV2).engineStarted = false := by
  refine ⟨?_, rfl, ?_, rfl, rfl, rfl, rfl⟩
  · intro hopen
    constructor <;> simp [dbUpdate, dbView, hopen]
  · intro hclosed
    constructor <;> simp [dbUpdate, dbView, hclosed]

/-- C2 witness: on a context already carrying the marker, Update fails
with TransactionAlreadyOpenError and the engine is never started. -/
theorem claim_C2_witness :
    IsTransactionOpen ⟨true⟩ = true
    ∧ dbUpdate [] ⟨true⟩ (fun _ t => (t, none))
        = ⟨some KVError.transactionAlreadyOpen, [], false⟩ :=
  ⟨by decide,
    ((claim_C2 [] [] ⟨true⟩ (fun _ t => (t, none)) (fun _ t => (t, none))
      (fun _ _ => none) (fun _ _ => none)).1 (by decide)).1⟩

/-- C9.  Relation store atomicity: Add, Replace, Remove and Delete each
run their tx-level body inside exactly one Database.Update call (the
definitions of RelationStore.Add etc. are single dbUpdate applications,
mirroring relation-store.go), so whenever such a call reports an error
the visible store is the one from before the call, and in particular
every bucket lookup — the forward index bucket and the backward index
bucket included — is unchanged.  The theorem holds for every tx-level
implementation (NewRelationStoreTx is not under src/, so the body is
universally quantified), hence also for the spec's forward/backward
merging bodies. -/
theorem claim_C9 (r : RelationStore) (store : Txn) (ctx : Context)
    (id : Bytes) (relatedIds : List Bytes) (e : KVError) :
    ((r.Add store ctx id relatedIds).err = some e →
      (r.Add store ctx id relatedIds).store = store
        ∧ ∀ bname key : Bytes,
            Bucket.Get (NewBucket bname) (r.Add store ctx id relatedIds).store key
              = Bucket.Get (NewBucket bname) store key)
    ∧ ((r.Replace store ctx id relatedIds).err = some e →
      (r.Replace store ctx id relatedIds).store = store
        ∧ ∀ bname key : Bytes,
            Bucket.Get (NewBucket bname) (r.Replace store ctx id relatedIds).store key
              = Bucket.Get (NewBucket bname) store key)
    ∧ ((r.Remove store ctx id relatedIds).err = some e →
      (r.Remove store ctx id relatedIds).store = store
        ∧ ∀ bname key : Bytes,
            Bucket.Get (NewBucket bname) (r.Remove store ctx id relatedIds).store key
              = Bucket.Get (NewBucket bname) store key)
    ∧ ((r.Delete store ctx id).err = some e →
      (r.Delete store ctx id).store = store
        ∧ ∀ bname key : Bytes,
            Bucket.Get (NewBucket bname) (r.Delete store ctx id).store key
              = Bucket.Get (NewBucket bname) store key) := by
  refine ⟨?_, ?_, ?_, ?_⟩ <;> intro h
  · have hs : (r.Add store ctx id relatedIds).store = store :=
      dbUpdate_err_store store ctx (fun c t => r.relationStoreTx.Add c t id relatedIds) e h
    exact ⟨hs, fun bname key => by rw [hs]⟩
  · have hs : (r.Replace store ctx id relatedIds).store = store :=
      dbUpdate_err_store store ctx (fun c t => r.relationStoreTx.Replace c t id relatedIds) e h
    exact ⟨hs, fun bname key => by rw [hs]⟩
  · have hs : (r.Remove store ctx id relatedIds).store = store :=
      dbUpdate_err_store store ctx (fun c t => r.relationStoreTx.Remove c t id relatedIds) e h
    exact ⟨hs, fun bname key => by rw [hs]⟩
  · have hs : (r.Delete store ctx id).store = store :=
      dbUpdate_err_store store ctx (fun c t => r.relationStoreTx.Delete c t id) e h
    exact ⟨hs, fun bname key => by rw [hs]⟩

/-- C9 witness: a tx-level Add body that writes a key into the store and
then reports a simulated engine error; the Update call reports the error
and the visible store is unchanged (the partial write is rolled back). -/
theorem claim_C9_witness :
    (RelationStore.Add
        ⟨⟨fun _ t _ _ => (txnSet t [3] [4], some (KVError.engineError 7)),
          fun _ t _ _ => (t, none),
          fun _ t _ _ => (t, none),
          fun _ t _ => (t, none)⟩⟩
        [] ⟨false⟩ [1] [[2]]).err = some (KVError.engineError 7)
    ∧ (RelationStore.Add
        ⟨⟨fun _ t _ _ => (txnSet t [3] [4], some (KVError.engineError 7)),
          fun _ t _ _ => (t, none),
          fun _ t _ _ => (t, none),
          fun _ t _ => (t, none)⟩⟩
        [] ⟨false⟩ [1] [[2]]).store = [] :=
  ⟨by decide,
    ((claim_C9
        ⟨⟨fun _ t _ _ => (txnSet t [3] [4], some (KVError.engineError 7)),
          fun _ t _ _ => (t, none),
          fun _ t _ _ => (t, none),
          fun _ t _ => (t, none)⟩⟩
        [] ⟨false⟩ [1] [[2]] (KVError.engineError 7)).1 (by decide)).1⟩

/-- C7 counterexample.  The claim quantifies over every bucket whose
stored raw keys are exactly {apple, banana, cherry}.  Build such a store
with Put: bucket [98] holds exactly apple, banana, cherry, and a second
bucket [97] holds one key that sorts before all of them.  The bucket's
Rewind() rewinds the engine cursor to the store's globally smallest key
(the [97]-bucket entry), where Valid() is already false, so the forward
iteration loop yields nothing instead of [apple, banana, cherry]. -/
theorem claim_C7_counterexample :
    Bucket.Put (NewBucket [98])
        (Bucket.Put (NewBucket [98])
          (Bucket.Put (NewBucket [98])
            (Bucket.Put (NewBucket [97]) ([] : Txn) [107] [0])
            [97, 112, 112, 108, 101] [1])
          [98, 97, 110, 97, 110, 97] [2])
        [99, 104, 101, 114, 114, 121] [3]
      = [([97, 95, 107], [0]),
         (BucketAddKey [98] [97, 112, 112, 108, 101], [1]),
         (BucketAddKey [98] [98, 97, 110, 97, 110, 97], [2]),
         (BucketAddKey [98] [99, 104, 101, 114, 114, 121], [3])]
    ∧ (([([97, 95, 107], [0]),
         (BucketAddKey [98] [97, 112, 112, 108, 101], [1]),
         (BucketAddKey [98] [98, 97, 110, 97, 110, 97], [2]),
         (BucketAddKey [98] [99, 104, 101, 114, 114, 121], [3])] : Txn).filter
            (fun e => (BucketToPrefix [98]).isPrefixOf e.1)).map
          (fun e => BucketRemoveKey [98] e.1)
        = [[97, 112, 112, 108, 101], [98, 97, 110, 97, 110, 97], [99, 104, 101, 114, 114, 121]]
    ∧ (runIterator (Bucket.Iterator (NewBucket [98])
        [([97, 95, 107], [0]),
         (BucketAddKey [98] [97, 112, 112, 108, 101], [1]),
         (BucketAddKey [98] [98, 97, 110, 97, 110, 97], [2]),
         (BucketAddKey [98] [99, 104, 101, 114, 114, 121], [3])])).map Item.Key = []
    ∧ ([] : List Bytes)
        ≠ [[97, 112, 112, 108, 101], [98, 97, 110, 97, 110, 97], [99, 104, 101, 114, 114, 121]] := by
  decide

/-- C7, amended.  When the engine store consists of exactly the bucket's
own entries (engine keys BucketAddKey(name, k)) in badger's ascending key
order, the forward iterator from Rewind() yields exactly the raw keys in
ascending lexicographic order, each exactly once, and the reverse
iterator yields exactly their reversal.  (As originally stated the claim
fails because Rewind() positions the cursor at the whole store's first
key rather than the bucket's: entries of other buckets sorting outside
the bucket's range cut the iteration short, see the counterexample.) -/
theorem claim_C7 (name : Bytes) (raws : List (Bytes × Bytes))
    (hsort : List.Pairwise (fun a b => lexLt a.1 b.1 = true)
      (raws.map (fun p => (BucketAddKey name p.1, p.2)))) :
    (runIterator (Bucket.Iterator (NewBucket name)
        (raws.map (fun p => (BucketAddKey name p.1, p.2))))).map Item.Key
      = raws.map Prod.fst
    ∧ List.Pairwise (fun a b : Bytes => lexLt a b = true) (raws.map Prod.fst)
    ∧ (raws.map Prod.fst).Nodup
    ∧ (runIterator (Bucket.IteratorReverse (NewBucket name)
        (raws.map (fun p => (BucketAddKey name p.1, p.2))))).map Item.Key
      = (raws.map Prod.fst).reverse := by
  set store := raws.map (fun p => (BucketAddKey name p.1, p.2)) with hstore
  have hpre : ∀ e ∈ store, name.isPrefixOf e.1 = true := by
    intro e he
    rw [hstore] at he
    rcases List.mem_map.mp he with ⟨p, hp, rfl⟩
    show name.isPrefixOf (BucketAddKey name p.1) = true
    have hform : BucketAddKey name p.1 = name ++ (95 :: p.1) := by
      simp [BucketAddKey, BucketToPrefix]
    rw [hform]
    exact isPrefixOf_append_self name (95 :: p.1)
  have hfwd : runIterator (Bucket.Iterator (NewBucket name) store)
      = store.map (fun e => NewItem name e.1 e.2) := by
    have h := collectItems_run name store.length store false 0 hpre (by omega)
    simpa [runIterator, Bucket.Iterator, Bucket.createIterator, NewIterator, NewBucket,
      newBadgerIterator, Iterator.Rewind, BadgerIterator.Rewind] using h
  have hmapkey : (store.map (fun e => NewItem name e.1 e.2)).map Item.Key
      = raws.map Prod.fst := by
    rw [hstore, List.map_map, List.map_map]
    simp [Function.comp, NewItem, Item.Key, BucketRemoveKey_BucketAddKey]
  have h1 := List.pairwise_map.mp hsort
  have hpair : List.Pairwise (fun a b : Bytes => lexLt a b = true) (raws.map Prod.fst) := by
    rw [List.pairwise_map]
    refine h1.imp ?_
    intro a b hab
    have hstrip := lexLt_append (BucketToPrefix name) a.1 b.1
    rw [← hstrip]
    exact hab
  have hnodup : (raws.map Prod.fst).Nodup := by
    have hne : List.Pairwise (fun a b : Bytes => a ≠ b) (raws.map Prod.fst) := by
      refine hpair.imp ?_
      intro a b hab heq
      rw [heq, lexLt_irrefl] at hab
      exact Bool.false_ne_true hab
    exact hne
  have hrev : runIterator (Bucket.IteratorReverse (NewBucket name) store)
      = store.reverse.map (fun e => NewItem name e.1 e.2) := by
    have hpre2 : ∀ e ∈ store.reverse, name.isPrefixOf e.1 = true := by
      intro e he
      exact hpre e (List.mem_reverse.mp he)
    have h := collectItems_run name store.reverse.length store.reverse true 0 hpre2 (by omega)
    simpa [runIterator, Bucket.IteratorReverse, Bucket.createIterator, NewIterator, NewBucket,
      newBadgerIterator, Iterator.Rewind, BadgerIterator.Rewind] using h
  refine ⟨?_, hpair, hnodup, ?_⟩
  · rw [hfwd, hmapkey]
  · rw [hrev, List.map_reverse, List.map_reverse, hmapkey]

/-- C7 witness: bucket [116] with raw keys apple, banana, cherry and no
other bucket in the store; the forward run from Rewind() yields exactly
the three keys in ascending order. -/
theorem claim_C7_witness :
    List.Pairwise (fun a b : Bytes × Bytes => lexLt a.1 b.1 = true)
      (([([97, 112, 112, 108, 101], [1]), ([98, 97, 110, 97, 110, 97], [2]),
         ([99, 104, 101, 114, 114, 121], [3])] : List (Bytes × Bytes)).map
        (fun p => (BucketAddKey [116] p.1, p.2)))
    ∧ (runIterator (Bucket.Iterator (NewBucket [116])
        (([([97, 112, 112, 108, 101], [1]), ([98, 97, 110, 97, 110, 97], [2]),
           ([99, 104, 101, 114, 114, 121], [3])] : List (Bytes × Bytes)).map
          (fun p => (BucketAddKey [116] p.1, p.2))))).map Item.Key
      = [[97, 112, 112, 108, 101], [98, 97, 110, 97, 110, 97], [99, 104, 101, 114, 114, 121]] :=
  ⟨by decide,
    (claim_C7 [116]
      [([97, 112, 112, 108, 101], [1]), ([98, 97, 110, 97, 110, 97], [2]),
       ([99, 104, 101, 114, 114, 121], [3])] (by decide)).1⟩
